import Mathlib

set_option maxRecDepth 8000

/-!
Verification of the seed-data repository (`lib/models.py`, `lib/seed.py`).

The relational store is shallowly embedded: each table is a list of
records, a nullable foreign-key column is an `Option Nat`, and SQLite's
autoincrement surrogate keys are modelled by assigning `max existing id + 1`
onwards at commit time.  `random.choice` is modelled by an arbitrary index
sequence `Nat → Nat`, reduced modulo the list length (`choice` on a
nonempty list always yields one of its elements; the draw is with
replacement, so the same element may be drawn repeatedly).
-/

/-- A row of the `games` table (`class Game` in models.py): identity only. -/
structure Game where
  id : Nat
deriving DecidableEq, Repr

/-- A row of the `users` table (`class User` in models.py): identity only. -/
structure User where
  id : Nat
deriving DecidableEq, Repr

/-- A row of the `reviews` table (`class Review` in models.py): identity plus
two nullable foreign keys `game_id` and `user_id`. -/
structure Review where
  id : Nat
  game_id : Option Nat
  user_id : Option Nat
deriving DecidableEq, Repr

/-- The relational store backing the session: the three tables of the schema. -/
structure Store where
  games : List Game
  reviews : List Review
  users : List User
deriving DecidableEq, Repr

/-- The store with all three tables empty. -/
def emptyStore : Store := { games := [], reviews := [], users := [] }

/-- The three tables, for stating in which order `delete_records` clears them. -/
inductive Table where
  | games
  | reviews
  | users
deriving DecidableEq, Repr

/-- `session.query(T).delete()`: remove every row of one table. -/
def deleteTable : Table → Store → Store
  | Table.games, s => { s with games := [] }
  | Table.reviews, s => { s with reviews := [] }
  | Table.users, s => { s with users := [] }

/-- The order in which `delete_records` (seed.py lines 22-26) issues its three
bulk deletes: `Game` first, then `Review`, then `User`, read off the three
statements in source order. -/
def deleteOrder : List Table := [Table.games, Table.reviews, Table.users]

/-- `delete_records` (seed.py): the three bulk deletes in source order,
followed by one commit. -/
def delete_records (s : Store) : Store :=
  deleteOrder.foldl (fun st t => deleteTable t st) s

/-- Largest id present in a table (0 when empty): the base from which SQLite
assigns the next autoincrement ids. -/
def maxId (ids : List Nat) : Nat := ids.foldr max 0

/-- `create_records` (seed.py): build 100 `Game()`s, 1000 `Review()`s and 500
`User()`s with no relationships set, `session.add_all` them in one batch and
commit once; ids are auto-assigned at the commit.  Returns the updated store
together with the three lists of created rows, as the Python function returns
`games, reviews, users`. -/
def create_records (s : Store) : Store × List Game × List Review × List User :=
  let gb := maxId (s.games.map Game.id)
  let rb := maxId (s.reviews.map Review.id)
  let ub := maxId (s.users.map User.id)
  let games := (List.range 100).map (fun i => { id := gb + i + 1 : Game })
  let reviews := (List.range 1000).map
    (fun i => { id := rb + i + 1, game_id := none, user_id := none : Review })
  let users := (List.range 500).map (fun i => { id := ub + i + 1 : User })
  ({ games := s.games ++ games
     reviews := s.reviews ++ reviews
     users := s.users ++ users }, games, reviews, users)

/-- `random.choice` on a list, driven by an externally supplied draw `i`:
an element when the list is nonempty, `none` when it is empty (where the
Python call would raise). -/
def rc {α : Type} (l : List α) (i : Nat) : Option α := l[i % l.length]?

/-- `relate_one_to_many` (seed.py): for each review in iteration order, set
`review.user` to a random user and `review.game` to a random game (writing the
two foreign keys), then `add_all` and commit; returns the three lists in the
order they were given.  The random draws are supplied as index sequences
`drawU`, `drawG`, one draw per review position. -/
def relate_one_to_many (games : List Game) (reviews : List Review)
    (users : List User) (drawU drawG : Nat → Nat) :
    List Game × List Review × List User :=
  let related := reviews.enum.map (fun p =>
    { p.2 with
      user_id := (rc users (drawU p.1)).map User.id
      game_id := (rc games (drawG p.1)).map Game.id })
  (games, related, users)

/-- The commit of `relate_one_to_many` as seen by the store: the review rows
(the same persistent objects the session already tracks) now carry their new
foreign keys; games and users are untouched. -/
def relate_commit (s : Store) (drawU drawG : Nat → Nat) : Store :=
  let t := relate_one_to_many s.games s.reviews s.users drawU drawG
  { s with reviews := t.2.1 }

/-- The `__main__` block of seed.py: `delete_records()`, then
`create_records()`, then `relate_one_to_many` on the rows just created (which,
the store having been reset, are exactly the store's tables). -/
def seed_main (s : Store) (drawU drawG : Nat → Nat) : Store :=
  relate_commit (create_records (delete_records s)).1 drawU drawG

/-- `Game.reviews` (models.py): the relationship `relationship('Review',
backref='game')` — the reviews whose `game_id` equals this game's id. -/
def Game.revs (s : Store) (g : Game) : List Review :=
  s.reviews.filter (fun r => r.game_id == some g.id)

/-- `User.reviews` (models.py): the relationship `relationship('Review',
backref='user')` — the reviews whose `user_id` equals this user's id. -/
def User.revs (s : Store) (u : User) : List Review :=
  s.reviews.filter (fun r => r.user_id == some u.id)

/-- `review.user`: follow a nullable foreign key to the referenced user row,
`none` when the key is null or dangling. -/
def lookupUser (s : Store) (uid : Option Nat) : Option User :=
  uid.bind (fun i => s.users.find? (fun u => u.id == i))

/-- `review.game`: follow a nullable foreign key to the referenced game row. -/
def lookupGame (s : Store) (gid : Option Nat) : Option Game :=
  gid.bind (fun i => s.games.find? (fun g => g.id == i))

/-- `Game.users` (models.py): the association proxy `association_proxy(
'reviews', 'user', ...)` — `[review.user for review in game.reviews]`. -/
def Game.users (s : Store) (g : Game) : List (Option User) :=
  (Game.revs s g).map (fun r => lookupUser s r.user_id)

/-- `User.games` (models.py): the association proxy `association_proxy(
'reviews', 'game', ...)` — `[review.game for review in user.reviews]`. -/
def User.games (s : Store) (u : User) : List (Option Game) :=
  (User.revs s u).map (fun r => lookupGame s r.game_id)

/-- Referential integrity of the store: every non-null `game_id`/`user_id` of
a review names an existing game/user row.  (SQLite with default settings does
not enforce this; it is the invariant the spec states.) -/
def refIntact (s : Store) : Bool :=
  s.reviews.all (fun r =>
    (r.game_id.all (fun gid => s.games.any (fun g => g.id == gid))) &&
    (r.user_id.all (fun uid => s.users.any (fun u => u.id == uid))))

/-- Writing `game.users.append(u)`: the proxy's creator
`lambda us: Review(user=us)` builds a fresh review with its user set, and
appending it to `game.reviews` sets the review's game via the backref; on
commit the new row is persisted with both foreign keys. -/
def Game.appendUser (s : Store) (g : Game) (u : User) : Store :=
  let rid := maxId (s.reviews.map Review.id) + 1
  { s with reviews :=
      s.reviews ++ [{ id := rid, game_id := some g.id, user_id := some u.id }] }

/-- Writing `user.games.append(g)`: the proxy's creator
`lambda gm: Review(game=gm)` builds a fresh review with its game set, and
appending it to `user.reviews` sets the review's user via the backref. -/
def User.appendGame (s : Store) (u : User) (g : Game) : Store :=
  let rid := maxId (s.reviews.map Review.id) + 1
  { s with reviews :=
      s.reviews ++ [{ id := rid, game_id := some g.id, user_id := some u.id }] }

/-- Outcome of a run of the seed script against fallible storage: either every
commit succeeded, or a commit raised and the run aborted; in both cases
`committed` is what the store holds afterwards (the state as of the last
commit that succeeded — nothing is rolled back across commit boundaries). -/
inductive SeedOutcome (ε : Type) where
  | ok (committed : Store)
  | failed (err : ε) (committed : Store)
deriving DecidableEq, Repr

/-- The `__main__` block of seed.py run against storage whose Relate-step
commit may fail (`relateErr = some e`).  The script has no exception
handling, so the storage error `e` propagates unmodified and the store keeps
the state committed by `create_records`. -/
def seed_main_fallible (ε : Type) (s : Store) (drawU drawG : Nat → Nat)
    (relateErr : Option ε) : SeedOutcome ε :=
  let s2 := (create_records (delete_records s)).1
  match relateErr with
  | some e => SeedOutcome.failed e s2
  | none => SeedOutcome.ok (relate_commit s2 drawU drawG)

/-- The single-row scenario store of the spec: one game with id 1, one user
with id 1, one review with `game_id = 1` and `user_id = 1`. -/
def scenarioStore : Store :=
  { games := [{ id := 1 }]
    reviews := [{ id := 1, game_id := some 1, user_id := some 1 }]
    users := [{ id := 1 }] }

/-! Helper lemmas. -/

/-- The reset always leaves the empty store, whatever was there before. -/
lemma delete_records_eq (s : Store) : delete_records s = emptyStore := by
  cases s
  rfl

/-- Row counts of the store produced by `create_records` on the empty store. -/
lemma create_empty_counts :
    (create_records emptyStore).1.games.length = 100 ∧
    (create_records emptyStore).1.reviews.length = 1000 ∧
    (create_records emptyStore).1.users.length = 500 := by
  simp [create_records, emptyStore]

/-- On a nonempty list, the modelled `random.choice` always returns one of
the list's elements. -/
lemma rc_mem {α : Type} (l : List α) (i : Nat) (h : l ≠ []) :
    ∃ x, x ∈ l ∧ rc l i = some x := by
  have hl : 0 < l.length := List.length_pos.mpr h
  have hm : i % l.length < l.length := Nat.mod_lt _ hl
  refine ⟨l[i % l.length], List.getElem_mem hm, ?_⟩
  simp [rc, List.getElem?_eq_getElem hm]

/-- Mapping a function of the payload over an enumerated list forgets the
indices. -/
lemma enumFrom_map_snd {α β : Type} (g : α → β) :
    ∀ (n : Nat) (l : List α),
      (List.enumFrom n l).map (fun p => g p.2) = l.map g := by
  intro n l
  induction l generalizing n with
  | nil => rfl
  | cons a t ih => simp [List.enumFrom, ih]

/-- Every review produced by the relate commit references a member of the
store's games and a member of its users, provided both tables are nonempty. -/
lemma relate_commit_refs (s : Store) (dU dG : Nat → Nat)
    (hg : s.games ≠ []) (hu : s.users ≠ []) :
    ∀ r ∈ (relate_commit s dU dG).reviews,
      (∃ g ∈ s.games, r.game_id = some g.id) ∧
      (∃ u ∈ s.users, r.user_id = some u.id) := by
  intro r hr
  simp only [relate_commit, relate_one_to_many] at hr
  rw [List.mem_map] at hr
  obtain ⟨p, _, rfl⟩ := hr
  obtain ⟨g, hgmem, hge⟩ := rc_mem s.games (dG p.1) hg
  obtain ⟨u, humem, hue⟩ := rc_mem s.users (dU p.1) hu
  exact ⟨⟨g, hgmem, by simp [hge]⟩, ⟨u, humem, by simp [hue]⟩⟩

/-- The full seed cycle always ends with 100 games, 1000 reviews and 500
users. -/
lemma seed_main_counts (s : Store) (dU dG : Nat → Nat) :
    (seed_main s dU dG).games.length = 100 ∧
    (seed_main s dU dG).reviews.length = 1000 ∧
    (seed_main s dU dG).users.length = 500 := by
  simp [seed_main, relate_commit, relate_one_to_many, delete_records_eq,
    create_records, emptyStore]

/-! Claim theorems. -/

/-- C1, counterexample: the claimed deletion order (Reviews first, then
Games, then Users) is not the source order, and on a store holding one
review that references the one game, the first delete statement removes the
games while the review still references game 1, breaking referential
integrity mid-reset. -/
theorem reset_order_counterexample :
    deleteOrder ≠ [Table.reviews, Table.games, Table.users] ∧
    refIntact scenarioStore = true ∧
    refIntact (deleteTable Table.games scenarioStore) = false := by
  decide

/-- C1, amended: the Reset operation deletes all Game rows first, then all
Review rows, then all User rows; after the first step the reviews are still
present (so a Review can transiently reference a deleted Game, which the
store tolerates since it does not enforce referential integrity), and the run
still empties all three tables. -/
theorem reset_order_amended (s : Store) :
    deleteOrder = [Table.games, Table.reviews, Table.users] ∧
    (deleteTable Table.games s).games = [] ∧
    (deleteTable Table.games s).reviews = s.reviews ∧
    (deleteTable Table.games s).users = s.users ∧
    delete_records s = emptyStore := by
  exact ⟨rfl, rfl, rfl, rfl, delete_records_eq s⟩

/-- C2: after Reset, the games, reviews and users tables each contain zero
rows, regardless of the prior contents of the store. -/
theorem reset_leaves_all_tables_empty (s : Store) :
    (delete_records s).games = [] ∧
    (delete_records s).reviews = [] ∧
    (delete_records s).users = [] := by
  rw [delete_records_eq]
  exact ⟨rfl, rfl, rfl⟩

/-- C6: in the store with exactly one game (id 1), one user (id 1) and one
review with `game_id = 1` and `user_id = 1`, the proxy `Game.users` of game 1
is exactly the one-element list holding user 1, and `User.games` of user 1 is
exactly the one-element list holding game 1. -/
theorem scenario_roundtrip :
    Game.users scenarioStore { id := 1 } = [some { id := 1 }] ∧
    User.games scenarioStore { id := 1 } = [some { id := 1 }] := by
  decide

/-- C9: when the Relate-step commit fails with a storage error `e`, the run
aborts with exactly that error (propagated unmodified), and the committed
store is the population-without-relations state left by Create: 100 games,
1000 reviews, 500 users, every review's two references null; nothing is
rolled back. -/
theorem relate_failure_leaves_population (ε : Type) (s : Store)
    (dU dG : Nat → Nat) (e : ε) :
    seed_main_fallible ε s dU dG (some e) =
      SeedOutcome.failed e (create_records (delete_records s)).1 ∧
    (create_records (delete_records s)).1.games.length = 100 ∧
    (create_records (delete_records s)).1.reviews.length = 1000 ∧
    (create_records (delete_records s)).1.users.length = 500 ∧
    ∀ r ∈ (create_records (delete_records s)).1.reviews,
      r.game_id = none ∧ r.user_id = none := by
  rw [delete_records_eq]
  refine ⟨rfl, create_empty_counts.1, create_empty_counts.2.1,
    create_empty_counts.2.2, ?_⟩
  intro r hr
  simp only [create_records, emptyStore, List.nil_append, List.mem_map,
    List.mem_range] at hr
  obtain ⟨i, _, rfl⟩ := hr
  exact ⟨rfl, rfl⟩

/-- C3: on the empty store, Create yields exactly 100 games, 1000 reviews and
500 users; the single committed batch makes the three tables exactly those
created rows; and every created review's two references are null. -/
theorem create_populates_fixed_counts :
    (create_records emptyStore).2.1.length = 100 ∧
    (create_records emptyStore).2.2.1.length = 1000 ∧
    (create_records emptyStore).2.2.2.length = 500 ∧
    (create_records emptyStore).1.games = (create_records emptyStore).2.1 ∧
    (create_records emptyStore).1.reviews = (create_records emptyStore).2.2.1 ∧
    (create_records emptyStore).1.users = (create_records emptyStore).2.2.2 ∧
    ∀ r ∈ (create_records emptyStore).1.reviews,
      r.game_id = none ∧ r.user_id = none := by
  refine ⟨by simp [create_records, emptyStore], by simp [create_records, emptyStore],
    by simp [create_records, emptyStore], by simp [create_records, emptyStore],
    by simp [create_records, emptyStore], by simp [create_records, emptyStore], ?_⟩
  intro r hr
  simp only [create_records, emptyStore, List.nil_append, List.mem_map,
    List.mem_range] at hr
  obtain ⟨i, _, rfl⟩ := hr
  exact ⟨rfl, rfl⟩

/-- C7: running the full Reset, Create, Relate cycle twice in succession
yields the 100/1000/500 cardinalities after each of the two runs, for every
outcome of the random draws. -/
theorem cycle_twice_same_cardinalities (s : Store) (dU1 dG1 dU2 dG2 : Nat → Nat) :
    ((seed_main s dU1 dG1).games.length = 100 ∧
     (seed_main s dU1 dG1).reviews.length = 1000 ∧
     (seed_main s dU1 dG1).users.length = 500) ∧
    ((seed_main (seed_main s dU1 dG1) dU2 dG2).games.length = 100 ∧
     (seed_main (seed_main s dU1 dG1) dU2 dG2).reviews.length = 1000 ∧
     (seed_main (seed_main s dU1 dG1) dU2 dG2).users.length = 500) :=
  ⟨seed_main_counts s dU1 dG1, seed_main_counts (seed_main s dU1 dG1) dU2 dG2⟩

/-- C10: Relate only touches review rows: it returns the very games and users
lists it was given (first and third components, in the given order), the
review rows keep their identities (same length, same ids, only the two
reference columns change), and at the store level the games and users tables
are unchanged by the relate commit. -/
theorem relate_frames_games_and_users (games : List Game) (reviews : List Review)
    (users : List User) (s : Store) (dU dG : Nat → Nat) :
    (relate_one_to_many games reviews users dU dG).1 = games ∧
    (relate_one_to_many games reviews users dU dG).2.2 = users ∧
    (relate_one_to_many games reviews users dU dG).2.1.length = reviews.length ∧
    (relate_one_to_many games reviews users dU dG).2.1.map Review.id
      = reviews.map Review.id ∧
    (relate_commit s dU dG).games = s.games ∧
    (relate_commit s dU dG).users = s.users := by
  refine ⟨rfl, rfl, ?_, ?_, rfl, rfl⟩
  · simp [relate_one_to_many]
  · simp only [relate_one_to_many, List.map_map, List.enum]
    exact enumFrom_map_snd Review.id 0 reviews

/-- C4: after the full cycle, the store holds the 100 created games and 500
created users, and every one of the 1000 reviews carries a non-null game
reference equal to the id of one of those games and a non-null user reference
equal to the id of one of those users; this holds for every outcome of the
per-review draws (which model choice-with-replacement from the two lists). -/
theorem relate_assigns_valid_refs (s : Store) (dU dG : Nat → Nat) :
    (seed_main s dU dG).games.length = 100 ∧
    (seed_main s dU dG).users.length = 500 ∧
    (seed_main s dU dG).reviews.length = 1000 ∧
    ∀ r ∈ (seed_main s dU dG).reviews,
      (∃ g ∈ (seed_main s dU dG).games, r.game_id = some g.id) ∧
      ∃ u ∈ (seed_main s dU dG).users, r.user_id = some u.id := by
  obtain ⟨h1, h2, h3⟩ := seed_main_counts s dU dG
  refine ⟨h1, h3, h2, ?_⟩
  intro r hr
  have hg : (create_records (delete_records s)).1.games ≠ [] :=
    List.ne_nil_of_length_pos
      (by rw [delete_records_eq]; simp [create_records, emptyStore])
  have hu : (create_records (delete_records s)).1.users ≠ [] :=
    List.ne_nil_of_length_pos
      (by rw [delete_records_eq]; simp [create_records, emptyStore])
  exact relate_commit_refs (create_records (delete_records s)).1 dU dG hg hu r hr

/-- A find-by-key over a list whose keys are pairwise distinct returns the
member itself. -/
lemma find_key_eq {α : Type} (key : α → Nat) :
    ∀ (l : List α), (l.map key).Nodup → ∀ u ∈ l,
      l.find? (fun x => key x == key u) = some u := by
  intro l
  induction l with
  | nil => intro _ u hu; cases hu
  | cons a t ih =>
    intro hnd u hu
    rw [List.map_cons, List.nodup_cons] at hnd
    rcases List.mem_cons.mp hu with rfl | hut
    · simp [List.find?]
    · have hne : (key a == key u) = false := by
        refine beq_eq_false_iff_ne.mpr ?_
        intro he
        exact hnd.1 (he ▸ List.mem_map_of_mem key hut)
      simp only [List.find?, hne]
      exact ih hnd.2 u hut

/-- Membership in the `Game.users` proxy characterised: a user appears there
exactly when it is a stored user and some stored review links it to the game
(user ids assumed unique, as primary keys are). -/
lemma mem_gameUsers_iff (s : Store) (g : Game) (u : User)
    (hnd : (s.users.map User.id).Nodup) :
    some u ∈ Game.users s g ↔
      u ∈ s.users ∧ ∃ r ∈ s.reviews,
        r.game_id = some g.id ∧ r.user_id = some u.id := by
  constructor
  · intro h
    simp only [Game.users, Game.revs, List.mem_map, List.mem_filter] at h
    obtain ⟨r, ⟨hrmem, hrg⟩, hru⟩ := h
    rw [beq_iff_eq] at hrg
    simp only [lookupUser] at hru
    cases hid : r.user_id with
    | none => rw [hid] at hru; simp at hru
    | some uid =>
      rw [hid] at hru
      simp only [Option.some_bind] at hru
      have humem := List.mem_of_find?_eq_some hru
      have hup := List.find?_some hru
      simp only [beq_iff_eq] at hup
      exact ⟨humem, r, hrmem, hrg, by rw [hid, hup]⟩
  · rintro ⟨humem, r, hrmem, hrg, hru⟩
    simp only [Game.users, Game.revs, List.mem_map, List.mem_filter]
    refine ⟨r, ⟨hrmem, by rw [hrg]; simp⟩, ?_⟩
    simp only [lookupUser, hru, Option.some_bind]
    exact find_key_eq User.id s.users hnd u humem

/-- Membership in the `User.games` proxy characterised, symmetrically. -/
lemma mem_userGames_iff (s : Store) (u : User) (g : Game)
    (hnd : (s.games.map Game.id).Nodup) :
    some g ∈ User.games s u ↔
      g ∈ s.games ∧ ∃ r ∈ s.reviews,
        r.user_id = some u.id ∧ r.game_id = some g.id := by
  constructor
  · intro h
    simp only [User.games, User.revs, List.mem_map, List.mem_filter] at h
    obtain ⟨r, ⟨hrmem, hru⟩, hrg⟩ := h
    rw [beq_iff_eq] at hru
    simp only [lookupGame] at hrg
    cases hid : r.game_id with
    | none => rw [hid] at hrg; simp at hrg
    | some gid =>
      rw [hid] at hrg
      simp only [Option.some_bind] at hrg
      have hgmem := List.mem_of_find?_eq_some hrg
      have hgp := List.find?_some hrg
      simp only [beq_iff_eq] at hgp
      exact ⟨hgmem, r, hrmem, hru, by rw [hid, hgp]⟩
  · rintro ⟨hgmem, r, hrmem, hru, hrg⟩
    simp only [User.games, User.revs, List.mem_map, List.mem_filter]
    refine ⟨r, ⟨hrmem, by rw [hru]; simp⟩, ?_⟩
    simp only [lookupGame, hrg, Option.some_bind]
    exact find_key_eq Game.id s.games hnd g hgmem

/-- C5: with unique primary keys, the derived projection `Game.users` of any
game contains exactly the stored users linked to that game by some stored
review, and symmetrically `User.games` of any user contains exactly the
stored games linked to that user by some stored review. -/
theorem proxy_roundtrip (s : Store) (g : Game) (u : User)
    (hndU : (s.users.map User.id).Nodup) (hndG : (s.games.map Game.id).Nodup) :
    (some u ∈ Game.users s g ↔
      u ∈ s.users ∧ ∃ r ∈ s.reviews,
        r.game_id = some g.id ∧ r.user_id = some u.id) ∧
    (some g ∈ User.games s u ↔
      g ∈ s.games ∧ ∃ r ∈ s.reviews,
        r.user_id = some u.id ∧ r.game_id = some g.id) :=
  ⟨mem_gameUsers_iff s g u hndU, mem_userGames_iff s u g hndG⟩

/-- Witness for C5: the characterisation applied to the one-game, one-user,
one-review store, with the uniqueness hypotheses checked concretely. -/
theorem proxy_roundtrip_witness :
    ((scenarioStore.users.map User.id).Nodup ∧
     (scenarioStore.games.map Game.id).Nodup) ∧
    ((some { id := 1 } ∈ Game.users scenarioStore { id := 1 } ↔
        ({ id := 1 } : User) ∈ scenarioStore.users ∧
        ∃ r ∈ scenarioStore.reviews,
          r.game_id = some (({ id := 1 } : Game).id) ∧
          r.user_id = some (({ id := 1 } : User).id)) ∧
     (some { id := 1 } ∈ User.games scenarioStore { id := 1 } ↔
        ({ id := 1 } : Game) ∈ scenarioStore.games ∧
        ∃ r ∈ scenarioStore.reviews,
          r.user_id = some (({ id := 1 } : User).id) ∧
          r.game_id = some (({ id := 1 } : Game).id))) :=
  ⟨⟨by decide, by decide⟩,
   proxy_roundtrip scenarioStore { id := 1 } { id := 1 } (by decide) (by decide)⟩

/-- The store component of `create_records`, spelled out. -/
lemma create_records_fst (s : Store) :
    (create_records s).1 =
      { games := s.games ++ (List.range 100).map
          (fun i => { id := maxId (s.games.map Game.id) + i + 1 : Game })
        reviews := s.reviews ++ (List.range 1000).map
          (fun i => { id := maxId (s.reviews.map Review.id) + i + 1,
                      game_id := none, user_id := none : Review })
        users := s.users ++ (List.range 500).map
          (fun i => { id := maxId (s.users.map User.id) + i + 1 : User }) } :=
  rfl

/-- A satisfied reference check survives growing the referenced table. -/
lemma optRef_append {α : Type} (o : Option Nat) (l₁ l₂ : List α) (key : α → Nat)
    (h : o.all (fun i => l₁.any (fun x => key x == i)) = true) :
    o.all (fun i => (l₁ ++ l₂).any (fun x => key x == i)) = true := by
  cases o with
  | none => rfl
  | some i =>
    simp only [Option.all_some] at h ⊢
    rw [List.any_append, h, Bool.true_or]

/-- Appending one review that references a present game and a present user
keeps referential integrity. -/
lemma refIntact_append (s : Store) (g : Game) (u : User) (rid : Nat)
    (hg : g ∈ s.games) (hu : u ∈ s.users) (hri : refIntact s = true) :
    refIntact { s with reviews := s.reviews ++
      [{ id := rid, game_id := some g.id, user_id := some u.id }] } = true := by
  simp only [refIntact, List.all_append] at hri ⊢
  rw [Bool.and_eq_true]
  refine ⟨hri, ?_⟩
  simp only [List.all_cons, List.all_nil, Bool.and_true, Option.all_some,
    Bool.and_eq_true, List.any_eq_true, beq_iff_eq]
  exact ⟨⟨g, hg, rfl⟩, ⟨u, hu, rfl⟩⟩

/-- Create preserves referential integrity: the fresh reviews carry null
references and the referenced tables only grow. -/
lemma refIntact_create (s : Store) (hri : refIntact s = true) :
    refIntact (create_records s).1 = true := by
  rw [create_records_fst]
  simp only [refIntact, List.all_eq_true] at hri ⊢
  intro r hr
  rw [List.mem_append] at hr
  rcases hr with hold | hnew
  · have h := hri r hold
    rw [Bool.and_eq_true] at h ⊢
    exact ⟨optRef_append r.game_id s.games _ Game.id h.1,
           optRef_append r.user_id s.users _ User.id h.2⟩
  · rw [List.mem_map] at hnew
    obtain ⟨i, _, rfl⟩ := hnew
    rfl

/-- The relate commit, spelled out at the store level. -/
lemma relate_commit_eq (s : Store) (dU dG : Nat → Nat) :
    relate_commit s dU dG =
      { s with reviews :=
          (relate_one_to_many s.games s.reviews s.users dU dG).2.1 } :=
  rfl

/-- The relate commit leaves a store with intact references whenever the
games and users tables are nonempty. -/
lemma refIntact_relate (s : Store) (dU dG : Nat → Nat)
    (hg : s.games ≠ []) (hu : s.users ≠ []) :
    refIntact (relate_commit s dU dG) = true := by
  simp only [refIntact, List.all_eq_true]
  intro r hr
  obtain ⟨⟨g, hgm, hge⟩, ⟨u, hum, hue⟩⟩ :=
    relate_commit_refs s dU dG hg hu r hr
  rw [relate_commit_eq]
  simp only [hge, hue, Option.all_some, Bool.and_eq_true, List.any_eq_true,
    beq_iff_eq]
  exact ⟨⟨g, hgm, rfl⟩, ⟨u, hum, rfl⟩⟩

/-- The full seed cycle always ends with intact references. -/
lemma refIntact_seed (s : Store) (dU dG : Nat → Nat) :
    refIntact (seed_main s dU dG) = true := by
  have hg : (create_records (delete_records s)).1.games ≠ [] :=
    List.ne_nil_of_length_pos
      (by rw [delete_records_eq]; simp [create_records, emptyStore])
  have hu : (create_records (delete_records s)).1.users ≠ [] :=
    List.ne_nil_of_length_pos
      (by rw [delete_records_eq]; simp [create_records, emptyStore])
  exact refIntact_relate (create_records (delete_records s)).1 dU dG hg hu

/-- C8: appending a user to `Game.users` (or a game to `User.games`) appends
exactly one new review row whose two references link the two sides, and every
operation of the repository — the two proxy writes, Reset, Create and the
full seed cycle — preserves referential integrity of the store. -/
theorem proxy_writes_create_review_and_keep_integrity (s : Store)
    (g : Game) (u : User) (dU dG : Nat → Nat)
    (hg : g ∈ s.games) (hu : u ∈ s.users) (hri : refIntact s = true) :
    (∃ r : Review, (Game.appendUser s g u).reviews = s.reviews ++ [r] ∧
        r.game_id = some g.id ∧ r.user_id = some u.id) ∧
    refIntact (Game.appendUser s g u) = true ∧
    (∃ r : Review, (User.appendGame s u g).reviews = s.reviews ++ [r] ∧
        r.game_id = some g.id ∧ r.user_id = some u.id) ∧
    refIntact (User.appendGame s u g) = true ∧
    refIntact (delete_records s) = true ∧
    refIntact (create_records s).1 = true ∧
    refIntact (seed_main s dU dG) = true :=
  ⟨⟨_, rfl, rfl, rfl⟩, refIntact_append s g u _ hg hu hri,
   ⟨_, rfl, rfl, rfl⟩, refIntact_append s g u _ hg hu hri,
   by rw [delete_records_eq]; rfl,
   refIntact_create s hri, refIntact_seed s dU dG⟩

/-- Witness for C8: the proxy-write and integrity statement applied to the
one-game, one-user, one-review store, with the hypotheses checked
concretely. -/
theorem proxy_writes_witness :
    (({ id := 1 } : Game) ∈ scenarioStore.games ∧
     ({ id := 1 } : User) ∈ scenarioStore.users ∧
     refIntact scenarioStore = true) ∧
    ((∃ r : Review,
        (Game.appendUser scenarioStore { id := 1 } { id := 1 }).reviews =
          scenarioStore.reviews ++ [r] ∧
        r.game_id = some (({ id := 1 } : Game).id) ∧
        r.user_id = some (({ id := 1 } : User).id)) ∧
     refIntact (Game.appendUser scenarioStore { id := 1 } { id := 1 }) = true ∧
     (∃ r : Review,
        (User.appendGame scenarioStore { id := 1 } { id := 1 }).reviews =
          scenarioStore.reviews ++ [r] ∧
        r.game_id = some (({ id := 1 } : Game).id) ∧
        r.user_id = some (({ id := 1 } : User).id)) ∧
     refIntact (User.appendGame scenarioStore { id := 1 } { id := 1 }) = true ∧
     refIntact (delete_records scenarioStore) = true ∧
     refIntact (create_records scenarioStore).1 = true ∧
     refIntact (seed_main scenarioStore id id) = true) :=
  ⟨⟨by decide, by decide, by decide⟩,
   proxy_writes_create_review_and_keep_integrity scenarioStore
     { id := 1 } { id := 1 } id id (by decide) (by decide) (by decide)⟩
